import Mathlib

/-!
Verification of the hypo71-to-NLLoc conversion program (`hypo71_to_NLL.py`).

The program is shallowly embedded: each Python function of the source file is
translated into an executable Lean definition operating on `List Char` lines.
Python `str` values become `List Char` (input files are opened with the ascii
codec, so one character is one byte), Python `int` becomes `ℤ`, and a Python
`float` is modelled as an exact fraction `Frac` — an unreduced numerator /
denominator pair whose rational value is read off by `Frac.val`.  The model
therefore computes with exact decimal values; it does not reproduce IEEE-754
rounding, underscore digit separators, or the `inf` / `nan` spellings.  A
`datetime` object is modelled by its total count of microseconds since
1970-01-01 00:00:00; Python's own field normalisation applies floor divmod to
exactly this quantity.  Fallible Python code, which signals failure by raising
`ValueError` / `IndexError`, is modelled with `Except`.
-/

/-- exact fraction: the model of a Python `float` value.  All fractions built
by the program have a positive denominator (a power of ten or one). -/
structure Frac where
  num : ℤ
  den : ℤ
  deriving DecidableEq

/-- rational value of a fraction, used in specification statements -/
def Frac.val (x : Frac) : ℚ :=
  (x.num : ℚ) / (x.den : ℚ)

/-- fraction holding an integer value -/
def Frac.ofInt (n : ℤ) : Frac :=
  ⟨n, 1⟩

/-- negation of a fraction -/
def Frac.neg (x : Frac) : Frac :=
  ⟨-x.num, x.den⟩

/-- product of a fraction and an integer -/
def Frac.mulInt (x : Frac) (k : ℤ) : Frac :=
  ⟨x.num * k, x.den⟩

/-- product of a fraction and `10 ^ e` -/
def Frac.mulPow10 (x : Frac) (e : ℕ) : Frac :=
  ⟨x.num * 10 ^ e, x.den⟩

/-- quotient of a fraction by `10 ^ e` -/
def Frac.divPow10 (x : Frac) (e : ℕ) : Frac :=
  ⟨x.num, x.den * 10 ^ e⟩

/-- floor of a fraction with positive denominator -/
def Frac.floorF (x : Frac) : ℤ :=
  x.num / x.den

/-- model of Python `int(x)` on a float value: truncation toward zero -/
def pyTrunc (x : Frac) : ℤ :=
  if 0 ≤ x.num then x.num / x.den else -((-x.num) / x.den)

/-- round-half-to-even on a fraction with positive denominator, used by
Python `timedelta(seconds=x)` when converting seconds to whole microseconds -/
def pyRoundHalfEven (x : Frac) : ℤ :=
  let f := x.num / x.den
  let r2 := 2 * (x.num % x.den)
  if r2 < x.den then f
  else if x.den < r2 then f + 1
  else if f % 2 = 0 then f else f + 1

/-- decidable equality of `Except` results, for evaluating the model on
concrete inputs -/
instance instDecEqExcept {ε α : Type} [DecidableEq ε] [DecidableEq α] :
    DecidableEq (Except ε α) := fun x y =>
  match x, y with
  | .ok a, .ok b =>
    if h : a = b then .isTrue (by rw [h]) else .isFalse (by intro hc; injection hc; contradiction)
  | .error a, .error b =>
    if h : a = b then .isTrue (by rw [h]) else .isFalse (by intro hc; injection hc; contradiction)
  | .ok _, .error _ => .isFalse (by intro hc; exact Except.noConfusion hc)
  | .error _, .ok _ => .isFalse (by intro hc; exact Except.noConfusion hc)

/-- characters stripped by Python `str.strip` on ASCII input -/
def pyIsSpace (c : Char) : Bool :=
  c == ' ' || c == '\t' || c == '\n' || c == '\r' || c == '\x0b' || c == '\x0c'

/-- Python `s.strip()` (ASCII whitespace on both ends) -/
def pyStrip (s : List Char) : List Char :=
  ((s.dropWhile pyIsSpace).reverse.dropWhile pyIsSpace).reverse

/-- Python slicing `s[a:b]` for `0 ≤ a ≤ b` -/
def pySlice (s : List Char) (a b : ℕ) : List Char :=
  (s.take b).drop a

/-- Python `line.replace('\n', '')` -/
def pyRemoveNl (s : List Char) : List Char :=
  s.filter (fun c => c != '\n')

/-- numeric value of a decimal digit character (the reduction mod 10 is a
no-op on digit characters and only serves to bound the result) -/
def digitVal (c : Char) : ℕ :=
  (c.toNat - 48) % 10

/-- value of a nonempty string of decimal digits -/
def digitsVal (s : List Char) : ℕ :=
  s.foldl (fun a c => 10 * a + digitVal c) 0

/-- digit-string parser underlying the model of Python `int` -/
def digitsToNat? (s : List Char) : Option ℕ :=
  if s ≠ [] ∧ s.all Char.isDigit then some (digitsVal s) else none

/-- model of Python `int(s)`: optional surrounding whitespace, optional sign,
then decimal digits -/
def pyInt? (s : List Char) : Option ℤ :=
  match pyStrip s with
  | '-' :: r => (digitsToNat? r).map (fun n => -(n : ℤ))
  | '+' :: r => (digitsToNat? r).map (fun n => (n : ℤ))
  | t => (digitsToNat? t).map (fun n => (n : ℤ))

/-- exponent suffix of a Python float literal, applied to mantissa `m` -/
def pyExpTail? (m : Frac) (r : List Char) : Option Frac :=
  match r with
  | '-' :: r1 =>
    if r1 ≠ [] ∧ r1.all Char.isDigit then some (m.divPow10 (digitsVal r1)) else none
  | '+' :: r1 =>
    if r1 ≠ [] ∧ r1.all Char.isDigit then some (m.mulPow10 (digitsVal r1)) else none
  | r1 =>
    if r1 ≠ [] ∧ r1.all Char.isDigit then some (m.mulPow10 (digitsVal r1)) else none

/-- optional `e`/`E` exponent after the mantissa of a Python float literal -/
def pyExp? (m : Frac) (r : List Char) : Option Frac :=
  match r with
  | [] => some m
  | 'e' :: r1 => pyExpTail? m r1
  | 'E' :: r1 => pyExpTail? m r1
  | _ => none

/-- unsigned body of a Python float literal: `digits [. digits] [exp]` or
`. digits [exp]` -/
def pyFloatBody? (t : List Char) : Option Frac :=
  let ip := t.takeWhile Char.isDigit
  let r1 := t.dropWhile Char.isDigit
  match r1 with
  | [] => if ip = [] then none else some (Frac.ofInt (digitsVal ip))
  | '.' :: r2 =>
    let fp := r2.takeWhile Char.isDigit
    let r3 := r2.dropWhile Char.isDigit
    if ip = [] ∧ fp = [] then none
    else pyExp? ⟨digitsVal ip * 10 ^ fp.length + digitsVal fp, 10 ^ fp.length⟩ r3
  | _ => if ip = [] then none else pyExp? (Frac.ofInt (digitsVal ip)) r1

/-- model of Python `float(s)` on finite decimal literals: optional surrounding
whitespace, optional sign, digits with optional fraction and exponent -/
def pyFloat? (s : List Char) : Option Frac :=
  match pyStrip s with
  | '-' :: r => (pyFloatBody? r).map Frac.neg
  | '+' :: r => pyFloatBody? r
  | t => pyFloatBody? t

/-- Python list indexing `l[i]`, including the negative-index wrap-around -/
def pyIndex (l : List Frac) (i : ℤ) : Option Frac :=
  if 0 ≤ i then l.get? i.toNat
  else if 0 ≤ i + l.length then l.get? (i + l.length).toNat
  else none

/-- proleptic Gregorian leap-year rule -/
def isLeapYear (y : ℤ) : Bool :=
  (y % 4 == 0 && y % 100 != 0) || y % 400 == 0

/-- number of days of month `m` in year `y` -/
def daysInMonth (y m : ℤ) : ℤ :=
  if m = 1 ∨ m = 3 ∨ m = 5 ∨ m = 7 ∨ m = 8 ∨ m = 10 ∨ m = 12 then 31
  else if m = 2 then (if isLeapYear y then 29 else 28)
  else 30

/-- days from 1970-01-01 to the civil date `y-m-d` (proleptic Gregorian) -/
def daysFromCivil (y m d : ℤ) : ℤ :=
  let y2 := if m ≤ 2 then y - 1 else y
  let era := y2 / 400
  let yoe := y2 - era * 400
  let mp := if 3 ≤ m then m - 3 else m + 9
  let doy := (153 * mp + 2) / 5 + d - 1
  let doe := yoe * 365 + yoe / 4 - yoe / 100 + doy
  era * 146097 + doe - 719468

/-- civil date `(y, m, d)` of the day `z` days after 1970-01-01 -/
def civilFromDays (z : ℤ) : ℤ × ℤ × ℤ :=
  let z2 := z + 719468
  let era := z2 / 146097
  let doe := z2 % 146097
  let yoe := (doe - doe / 1460 + doe / 36524 - doe / 146096) / 365
  let y := yoe + era * 400
  let doy := doe - (365 * yoe + yoe / 4 - yoe / 100)
  let mp := (5 * doy + 2) / 153
  let d := doy - (153 * mp + 2) / 5 + 1
  let m := if mp < 10 then mp + 3 else mp - 9
  (y + (if m ≤ 2 then 1 else 0), m, d)

/-- model of `datetime.strptime(s, '%y%m%d')`: six digits, two-digit year
(00-68 maps to 2000-2068 and 69-99 to 1969-1999), month and day validated;
returns the day count since 1970-01-01 -/
def strptimeYMD (s : List Char) : Option ℤ :=
  if s.length = 6 ∧ s.all Char.isDigit then
    let yy := (digitsVal (pySlice s 0 2) : ℤ)
    let mm := (digitsVal (pySlice s 2 4) : ℤ)
    let dd := (digitsVal (pySlice s 4 6) : ℤ)
    let y := if yy ≤ 68 then 2000 + yy else 1900 + yy
    if 1 ≤ mm ∧ mm ≤ 12 ∧ 1 ≤ dd ∧ dd ≤ daysInMonth y mm then
      some (daysFromCivil y mm dd)
    else none
  else none

/-- microsecond field of a datetime given as total microseconds -/
def microsecondOf (t : ℤ) : ℤ := t % 1000000

/-- second field of a datetime given as total microseconds -/
def secondOf (t : ℤ) : ℤ := t / 1000000 % 60

/-- minute field of a datetime given as total microseconds -/
def minuteOf (t : ℤ) : ℤ := t / 60000000 % 60

/-- hour field of a datetime given as total microseconds -/
def hourOf (t : ℤ) : ℤ := t / 3600000000 % 24

/-- day ordinal (days since 1970-01-01) of a datetime given as total
microseconds; two datetimes share their civil date iff they share this value -/
def dayOrdOf (t : ℤ) : ℤ := t / 86400000000

/-- civil date `(year, month, day)` of a datetime given as total microseconds -/
def dateOf (t : ℤ) : ℤ × ℤ × ℤ := civilFromDays (dayOrdOf t)

/-- unit digit characters used when rendering numbers -/
def digch (k : ℕ) : Char :=
  match k with
  | 0 => '0' | 1 => '1' | 2 => '2' | 3 => '3' | 4 => '4'
  | 5 => '5' | 6 => '6' | 7 => '7' | 8 => '8' | 9 => '9'
  | _ => '0'

/-- fuelled decimal digit expansion of a natural number, most significant
digit first; empty on zero -/
def natDigitsAux : ℕ → ℕ → List Char
  | 0, _ => []
  | fuel + 1, n => if n = 0 then [] else natDigitsAux fuel (n / 10) ++ [digch (n % 10)]

/-- decimal rendering of a natural number -/
def natToStr (n : ℕ) : List Char :=
  if n = 0 then ['0'] else natDigitsAux (n + 1) n

/-- zero-padded decimal rendering, as produced by `strftime` field directives -/
def padNum (w n : ℕ) : List Char :=
  List.replicate (w - (natToStr n).length) '0' ++ natToStr n

/-- Python format spec `f'{s:6}'` on a string: left-justified, padded with
spaces on the right up to the minimum width -/
def padRightStr (w : ℕ) (s : List Char) : List Char :=
  s ++ List.replicate (w - s.length) ' '

/-- fuelled decimal expansion of the fractional part `r` of a fraction with
`0 ≤ r < 1` -/
def fracDigitsAux : ℕ → Frac → List Char
  | 0, _ => []
  | fuel + 1, r =>
    if r.num = 0 then []
    else
      let r10 : Frac := ⟨r.num * 10, r.den⟩
      let d := r10.floorF
      digch d.toNat :: fracDigitsAux fuel ⟨r10.num - d * r10.den, r10.den⟩

/-- model of Python `str(x)` on a float holding a short decimal value, as used
for the `error` field of the output line (scientific notation for extreme
magnitudes is not modelled) -/
def pyFloatRepr (q : Frac) : List Char :=
  let a : Frac := ⟨|q.num|, q.den⟩
  let ip := a.floorF
  let fr := fracDigitsAux 17 ⟨a.num - ip * a.den, a.den⟩
  (if q.num < 0 then ['-'] else []) ++ natToStr ip.toNat ++ ['.'] ++
    (if fr = [] then ['0'] else fr)

/-- model of `self.time.strftime('%Y%m%d %H%M %S.%f')` -/
def strftimeNLL (t : ℤ) : List Char :=
  padNum 4 (dateOf t).1.toNat ++ padNum 2 (dateOf t).2.1.toNat ++
    padNum 2 (dateOf t).2.2.toNat ++ [' '] ++
    padNum 2 (hourOf t).toNat ++ padNum 2 (minuteOf t).toNat ++ [' '] ++
    padNum 2 (secondOf t).toNat ++ ['.'] ++ padNum 6 (microsecondOf t).toNat

/-- the `Pick` entity of the program: one phase arrival observation, with the
timestamp stored as total microseconds since 1970-01-01 -/
structure Pick where
  station : List Char
  flag : List Char
  phase : List Char
  polarity : List Char
  quality : ℤ
  error : Frac
  time : ℤ
  deriving DecidableEq

/-- `Pick.to_nlloc` of the source: the NLLoc phase line for one pick -/
def Pick.to_nlloc (p : Pick) : List Char :=
  padRightStr 6 p.station ++ (" ? ? ? ").data ++ p.phase ++ [' '] ++
    strftimeNLL p.time ++ (" GAU ").data ++ pyFloatRepr p.error ++
    (" 1.0 1.0 1.0").data

/-- per-line outcome of the three-offset structural signature test -/
inductive LineVerdict where
  | skip | pass | sigFail | idxErr
  deriving DecidableEq

/-- per-line body of `_is_hypo71_picks`: newline removal, separator/blank
skipping, then the signature test `line[5] in ['P',' '] and line[9].isdigit()
and line[20].isdigit()` with Python's evaluation order (indexing a too-short
line raises `IndexError` before any comparison is made) -/
def checkLineV (line0 : List Char) : LineVerdict :=
  let line := pyRemoveNl line0
  if pyStrip line = ['1', '0'] ∨ pyStrip line = [] then .skip
  else
    match line.get? 5 with
    | none => .idxErr
    | some c5 =>
      if c5 = 'P' ∨ c5 = ' ' then
        match line.get? 9 with
        | none => .idxErr
        | some c9 =>
          if c9.isDigit then
            match line.get? 20 with
            | none => .idxErr
            | some c20 => if c20.isDigit then .pass else .sigFail
          else .sigFail
      else .sigFail

/-- outcome of validating a whole file -/
inductive ValidateResult where
  | ok | formatError | indexError
  deriving DecidableEq

/-- `_is_hypo71_picks` of the source: scan the lines, raising `TypeError`
(modelled `formatError`) at the first signature failure; a line too short for
an evaluated offset raises `IndexError` (modelled `indexError`) instead -/
def _is_hypo71_picks : List (List Char) → ValidateResult
  | [] => .ok
  | l :: ls =>
    match checkLineV l with
    | .skip => _is_hypo71_picks ls
    | .pass => _is_hypo71_picks ls
    | .sigFail => .formatError
    | .idxErr => .indexError

/-- exceptions the pick decoder can raise to its caller -/
inductive DecErr where
  | valueErr | idxErr
  deriving DecidableEq

/-- defensive re-check at the top of `_parse_hypo71_pick_line` (source lines
89-101), textually the same test as the validator's -/
def decodeGate (line0 : List Char) : LineVerdict :=
  let line := pyRemoveNl line0
  if pyStrip line = ['1', '0'] ∨ pyStrip line = [] then .skip
  else
    match line.get? 5 with
    | none => .idxErr
    | some c5 =>
      if c5 = 'P' ∨ c5 = ' ' then
        match line.get? 9 with
        | none => .idxErr
        | some c9 =>
          if c9.isDigit then
            match line.get? 20 with
            | none => .idxErr
            | some c20 => if c20.isDigit then .pass else .sigFail
          else .sigFail
      else .sigFail

/-- `milliseconds = int(seconds * 1000)` of the source (line 120):
truncation, not rounding, of the scaled seconds value -/
def millisecondsOfSeconds (q : Frac) : ℤ :=
  pyTrunc (q.mulInt 1000)

/-- quality digit parsing with the `except ValueError: quality = 4` fallback
(source lines 107-112 and 139-144) -/
def parseQuality (s : List Char) : ℤ :=
  (pyInt? s).getD 4

/-- `timestr = line[9:24].replace(' ', '0')` (source line 114) -/
def timestrOf (line : List Char) : List Char :=
  (pySlice line 9 24).map (fun c => if c = ' ' then '0' else c)

/-- the primary timestamp (source lines 121-123): parsed date plus hours,
minutes and the millisecond-derived duration, in total microseconds -/
def primaryTime (hour minute day : ℤ) (seconds : Frac) : ℤ :=
  day * 86400000000 + hour * 3600000000 + minute * 60000000 +
    millisecondsOfSeconds seconds * 1000

/-- the primary pick of a line (source lines 102-123): fields sliced at fixed
offsets from the newline-free line -/
def primaryPickOf (line : List Char) (error : Frac) (hour minute day : ℤ)
    (seconds : Frac) : Pick :=
  ⟨pyStrip (line.take 4), pySlice line 4 5, pySlice line 5 6, pySlice line 6 7,
    parseQuality (pySlice line 7 8), error, primaryTime hour minute day seconds⟩

/-- the second pick of a line (source lines 134-153): fields sliced at
offsets 36-39, timestamp from the primary time with seconds and microseconds
zeroed plus the stime offset -/
def secondPickOf (line : List Char) (error2 : Frac) (t : ℤ) (sval : Frac) : Pick :=
  ⟨pyStrip (line.take 4), pySlice line 36 37, pySlice line 37 38, pySlice line 38 39,
    parseQuality (pySlice line 39 40), error2,
    t / 60000000 * 60000000 + pyRoundHalfEven (sval.mulInt 1000000)⟩

/-- main body of `_parse_hypo71_pick_line` (source lines 102-155), entered
once the structural signature has passed; `line` is the newline-free line -/
def decodeBody (line : List Char) (errors : List Frac) : Except DecErr (List Pick) :=
  match pyIndex errors (parseQuality (pySlice line 7 8)) with
  | none => .error .idxErr
  | some error =>
    match pyInt? (pySlice (timestrOf line) 6 8) with
    | none => .error .valueErr
    | some hour =>
      match pyInt? (pySlice (timestrOf line) 8 10) with
      | none => .error .valueErr
      | some minute =>
        match pyFloat? (pySlice (timestrOf line) 10 15) with
        | none => .error .valueErr
        | some seconds =>
          match strptimeYMD ((timestrOf line).take 6) with
          | none => .error .valueErr
          | some day =>
            let picks := if pySlice line 5 6 = ['P'] then
              [primaryPickOf line error hour minute day seconds] else []
            if pyStrip (pySlice line 31 36) = [] then .ok picks
            else
              match pyIndex errors (parseQuality (pySlice line 39 40)) with
              | none => .error .idxErr
              | some error2 =>
                match pyFloat? (pySlice line 31 36) with
                | none => .error .valueErr
                | some sval =>
                  .ok (picks ++
                    [secondPickOf line error2 (primaryTime hour minute day seconds) sval])

/-- `_parse_hypo71_pick_line` of the source: the Python `None` results of the
skip and signature-failure branches are modelled as the empty pick list, which
is how the sole caller treats them (`if _picks:`) -/
def _parse_hypo71_pick_line (line0 : List Char) (errors : List Frac) :
    Except DecErr (List Pick) :=
  match decodeGate line0 with
  | .skip => .ok []
  | .sigFail => .ok []
  | .idxErr => .error .idxErr
  | .pass => decodeBody (pyRemoveNl line0) errors

/-- failure modes of a whole conversion run on one file -/
inductive TopErr where
  | format | index | dec (e : DecErr)
  deriving DecidableEq

/-- the scan loop of `parse_hypo71_picks` (source lines 171-181): a separator
closes the current event buffer; every line is then fed to the pick decoder
and the produced picks extend the buffer; the trailing buffer is dropped -/
def segLoop (errors : List Frac) :
    List (List Char) → List Pick → List (List Pick) → Except DecErr (List (List Pick))
  | [], _, acc => .ok acc
  | l :: ls, buf, acc =>
    let acc2 := if pyStrip l = ['1', '0'] then acc ++ [buf] else acc
    let buf2 := if pyStrip l = ['1', '0'] then ([] : List Pick) else buf
    match _parse_hypo71_pick_line l errors with
    | .error e => .error e
    | .ok ps => segLoop errors ls (buf2 ++ ps) acc2

/-- `parse_hypo71_picks` of the source: validate the whole file first (a
`TypeError` is caught and aborts the run; an `IndexError` escapes), then
segment the decoded picks into events -/
def parse_hypo71_picks (lines : List (List Char)) (errors : List Frac) :
    Except TopErr (List (List Pick)) :=
  match _is_hypo71_picks lines with
  | .formatError => .error .format
  | .indexError => .error .index
  | .ok =>
    match segLoop errors lines [] [] with
    | .error e => .error (.dec e)
    | .ok evs => .ok evs

/-- number of separator lines of a file -/
def countSep (lines : List (List Char)) : ℕ :=
  lines.countP (fun l => decide (pyStrip l = ['1', '0']))

/-- Modelled from the spec (§4.3), as the reference shape for the segmenter:
on a separator, close the current event; otherwise decode the line into the
current buffer; the trailing buffer after the last separator is discarded -/
def eventsSpec (errors : List Frac) :
    List (List Char) → List Pick → Except DecErr (List (List Pick))
  | [], _ => .ok []
  | l :: ls, buf =>
    match _parse_hypo71_pick_line l errors with
    | .error e => .error e
    | .ok ps =>
      if pyStrip l = ['1', '0'] then (eventsSpec errors ls ps).map (fun evs => buf :: evs)
      else eventsSpec errors ls (buf ++ ps)

/-- configuration failures of the `--errors` option check -/
inductive ConfigErr where
  | needFive | invalid
  deriving DecidableEq

/-- Python `s.split(',')` -/
def splitOnComma : List Char → List (List Char)
  | [] => [[]]
  | c :: r =>
    if c = ',' then [] :: splitOnComma r
    else
      match splitOnComma r with
      | s :: ss => (c :: s) :: ss
      | [] => [[c]]

/-- one step of `[float(args.errors[i]) for i in range(5)]`: `IndexError` when
the list is too short, `ValueError` when the entry is not a float literal -/
def floatAt (parts : List (List Char)) (i : ℕ) : Except ConfigErr Frac :=
  match parts.get? i with
  | none => .error .needFive
  | some p =>
    match pyFloat? p with
    | none => .error .invalid
    | some v => .ok v

/-- the `--errors` validation of `parse_args` (source lines 201-211): split on
commas and convert the first five entries, in index order -/
def parse_args_errors (s : List Char) : Except ConfigErr (List Frac) :=
  match floatAt (splitOnComma s) 0 with
  | .error e => .error e
  | .ok e0 =>
    match floatAt (splitOnComma s) 1 with
    | .error e => .error e
    | .ok e1 =>
      match floatAt (splitOnComma s) 2 with
      | .error e => .error e
      | .ok e2 =>
        match floatAt (splitOnComma s) 3 with
        | .error e => .error e
        | .ok e3 =>
          match floatAt (splitOnComma s) 4 with
          | .error e => .error e
          | .ok e4 => .ok [e0, e1, e2, e3, e4]

/-- failure modes of a whole run -/
inductive RunErr where
  | config (e : ConfigErr) | top (e : TopErr)
  deriving DecidableEq

/-- the `run` pipeline of the source up to the event list: the `--errors`
option is validated before the input file is touched -/
def convertRun (errStr : List Char) (lines : List (List Char)) :
    Except RunErr (List (List Pick)) :=
  match parse_args_errors errStr with
  | .error e => .error (.config e)
  | .ok errors =>
    match parse_hypo71_picks lines errors with
    | .error e => .error (.top e)
    | .ok evs => .ok evs

/-! ### Semantic lemmas about the fraction model -/

/-- floor of a fraction agrees with the floor of its rational value -/
theorem Frac.floorF_eq_floor_val (x : Frac) (hd : 0 < x.den) : x.floorF = ⌊x.val⌋ := by
  rcases x with ⟨n, d⟩
  simp only [Frac.floorF, Frac.val] at *
  have h1 : ((d.toNat : ℤ)) = d := Int.toNat_of_nonneg hd.le
  rw [← h1]
  have h2 : (((d.toNat : ℤ)) : ℚ) = ((d.toNat : ℕ) : ℚ) := by push_cast; ring
  rw [h2]
  exact (Rat.floor_intCast_div_natCast n d.toNat).symm

/-- a fraction with positive denominator and nonnegative value has a
nonnegative numerator -/
theorem Frac.num_nonneg_of_val_nonneg (x : Frac) (hd : 0 < x.den) (h0 : 0 ≤ x.val) :
    0 ≤ x.num := by
  by_contra hneg
  push_neg at hneg
  have hq : x.val < 0 := by
    unfold Frac.val
    apply div_neg_of_neg_of_pos
    · exact_mod_cast hneg
    · exact_mod_cast hd
  exact absurd h0 (not_le.mpr hq)

/-- Python truncation toward zero agrees with the floor on nonnegative
values -/
theorem pyTrunc_eq_floor (x : Frac) (hd : 0 < x.den) (h0 : 0 ≤ x.val) :
    pyTrunc x = ⌊x.val⌋ := by
  unfold pyTrunc
  rw [if_pos (Frac.num_nonneg_of_val_nonneg x hd h0)]
  exact Frac.floorF_eq_floor_val x hd

/-- value of the product of a fraction and an integer -/
theorem Frac.val_mulInt (x : Frac) (k : ℤ) : (x.mulInt k).val = x.val * k := by
  unfold Frac.mulInt Frac.val
  push_cast
  ring

/-- the half-even rounding reduces to exact division when the fraction is an
exact multiple of the denominator -/
theorem pyRoundHalfEven_of_exact (x : Frac) (hd : 0 < x.den) (hm : x.num % x.den = 0) :
    pyRoundHalfEven x = x.num / x.den := by
  unfold pyRoundHalfEven
  simp only [hm, mul_zero]
  rw [if_pos hd]

/-- exact division recovers the numerator -/
theorem Frac.ediv_mul_of_exact (x : Frac) (hm : x.num % x.den = 0) :
    x.num / x.den * x.den = x.num :=
  Int.ediv_mul_cancel (Int.dvd_of_emod_eq_zero hm)

/-! ### Concrete inputs used by witnesses and counterexamples -/

/-- the default error table `0.01,0.02,0.03,0.04,0.05` -/
def errs5 : List Frac := [⟨1, 100⟩, ⟨2, 100⟩, ⟨3, 100⟩, ⟨4, 100⟩, ⟨5, 100⟩]

/-- a well-formed P pick line with quality 1 and no second pick -/
def exLine : List Char := ("STA APU1 2401011200 1.50").data

/-- the pick decoded from `exLine` with the `errs5` table -/
def exPick : Pick := ⟨("STA").data, ['A'], ['P'], ['U'], 1, ⟨2, 100⟩, 1704110401500000⟩

/-- a well-formed pick line whose quality digit is the out-of-range `7` -/
def lineQ7 : List Char := ("STA APU7 2401011200 1.50").data

/-- a blank-phase line with blank stime but out-of-range quality digit `7` -/
def lineBlank7 : List Char := ("STA A U7 2401011200 1.50").data

/-- a blank-phase line with blank stime and in-range quality digit -/
def lineBlankOk : List Char := ("STA A U1 2401011200 1.50").data

/-- a P pick line carrying a second pick whose stime `75.00` exceeds one
minute -/
def lineS75 : List Char := ("STA APU1 2401011200 1.50       75.00").data

/-- the second pick decoded from `lineS75` -/
def exPickS75 : Pick := ⟨("STA").data, [], [], [], 4, ⟨5, 100⟩, 1704110475000000⟩

/-- a P pick line carrying a second pick with stime `12.50` -/
def lineS12 : List Char := ("STA APU1 2401011200 1.50       12.50").data

/-- the second pick decoded from `lineS12` -/
def exPickS12 : Pick := ⟨("STA").data, [], [], [], 4, ⟨5, 100⟩, 1704110412500000⟩

/-- a pick with a three-letter station, for the emitter -/
def exPickNAP : Pick := ⟨("NAP").data, ['A'], ['P'], ['U'], 1, ⟨2, 100⟩, 1704110401500000⟩

/-- a line of full length whose phase column holds `X`, failing the
signature -/
def lineBadSig : List Char := ("STA AXU1 2401011200 1.50").data

/-! ### C6: millisecond truncation -/

/-- C6 (confirmed): the primary timestamp's milliseconds are
`int(seconds * 1000)`, i.e. the floor of the scaled value for the nonnegative
seconds occurring here, never a rounding; a parsed seconds value of `12.3459`
yields 12345 whole milliseconds, hence a sub-second part of 345 ms rather
than the 346 ms a rounding would give.  (Float values are modelled as exact
fractions.) -/
theorem spec_C6 :
    (∀ q : Frac, 0 < q.den → 0 ≤ q.val → millisecondsOfSeconds q = ⌊q.val * 1000⌋) ∧
    millisecondsOfSeconds ⟨123459, 10000⟩ = 12345 ∧
    millisecondsOfSeconds ⟨123459, 10000⟩ % 1000 = 345 := by
  refine ⟨fun q hd h0 => ?_, by decide, by decide⟩
  unfold millisecondsOfSeconds
  have hd2 : 0 < (q.mulInt 1000).den := hd
  have hval : (q.mulInt 1000).val = q.val * 1000 := Frac.val_mulInt q 1000
  have h02 : 0 ≤ (q.mulInt 1000).val := by
    rw [hval]
    exact mul_nonneg h0 (by norm_num)
  rw [pyTrunc_eq_floor _ hd2 h02, hval]

/-- C6 witness: the truncation theorem applied at the seconds value
`12.3459`. -/
theorem spec_C6_witness :
    millisecondsOfSeconds ⟨123459, 10000⟩ = ⌊(Frac.mk 123459 10000).val * 1000⌋ :=
  spec_C6.1 ⟨123459, 10000⟩ (by norm_num) (by norm_num [Frac.val])

/-! ### C10: validator and decoder gate agree -/

/-- C10 (confirmed): the validator's per-line check and the decoder's
defensive re-check are the same predicate, and on a file accepted by the
validator the decoder's produce-nothing-on-signature-failure branch is
unreachable. -/
theorem spec_C10 :
    (∀ l, decodeGate l = checkLineV l) ∧
    (∀ lines, _is_hypo71_picks lines = .ok → ∀ l ∈ lines, decodeGate l ≠ .sigFail) := by
  constructor
  · intro l
    rfl
  · intro lines
    induction lines with
    | nil =>
      intro _ l hl
      simp at hl
    | cons a as ih =>
      intro hok l hl
      rcases List.mem_cons.mp hl with rfl | hmem
      · intro hcon
        have hv : checkLineV l = .sigFail := hcon
        simp only [_is_hypo71_picks, hv] at hok
        exact ValidateResult.noConfusion hok
      · cases hv : checkLineV a <;> simp only [_is_hypo71_picks, hv] at hok <;>
          first
          | exact ih hok l hmem
          | exact ValidateResult.noConfusion hok

/-- C10 witness: the agreement applied to the concrete line `exLine` of the
validated one-line file `[exLine]`. -/
theorem spec_C10_witness :
    decodeGate exLine = checkLineV exLine ∧ decodeGate exLine ≠ .sigFail :=
  ⟨spec_C10.1 exLine, spec_C10.2 [exLine] (by decide) exLine (by simp)⟩

/-! ### Counterexamples -/

/-- C1 counterexample: on a structurally valid line whose quality character is
the digit `7`, the quality parses as the out-of-range integer 7, no fallback
to 4 happens, and the five-entry table lookup `errors[7]` raises `IndexError`
instead of emitting a pick. -/
theorem spec_C1_counterexample :
    _parse_hypo71_pick_line lineQ7 errs5 = .error .idxErr := by decide

/-- C2 counterexample: the decoder raises `IndexError` to its caller on the
raw line `"abc"` (too short for `line[5]`), instead of absorbing the failure
and returning a sequence of picks. -/
theorem spec_C2_counterexample :
    _parse_hypo71_pick_line (("abc").data) errs5 = .error .idxErr := by decide

/-- C3 counterexample: a file holding one decodable pick line and no separator
has N = 0 separator lines, yet the segmenter returns 0 events, not the N + 1
= 1 events the claim promises (the trailing buffer is discarded). -/
theorem spec_C3_counterexample :
    parse_hypo71_picks [exLine] errs5 = .ok [] ∧ countSep [exLine] = 0 := by decide

/-- C4 counterexample: on a file whose only line is the too-short non-blank
line `"AB"`, validation aborts with an out-of-range indexing fault, not with
the format error the claim promises. -/
theorem spec_C4_counterexample :
    _is_hypo71_picks [("AB").data] = .indexError ∧
    _is_hypo71_picks [("AB").data] ≠ .formatError := by decide

/-- C5 counterexample: on a structurally valid P line whose non-blank numeric
stime field holds `75.00`, two picks are produced but the second pick's
minute field is 1 while the first pick's is 0 — the date/hour/minute equality
claimed fails once the stime offset reaches a full minute. -/
theorem spec_C5_counterexample :
    _parse_hypo71_pick_line lineS75 errs5 = .ok [exPick, exPickS75] ∧
    minuteOf exPick.time = 0 ∧ minuteOf exPickS75.time = 1 := by decide

/-- C7 counterexample: the emitter renders the station left-justified (spaces
added on the right), not left-padded: station `NAP` opens the line as
`"NAP   "` and not as `"   NAP"`. -/
theorem spec_C7_counterexample :
    (Pick.to_nlloc exPickNAP).take 6 = ("NAP   ").data ∧
    (Pick.to_nlloc exPickNAP).take 6 ≠ ("   NAP").data := by decide

/-- C8 counterexample: an `--errors` string holding six comma-separated
numeric values is accepted (the sixth is silently ignored), although the
claim says any count other than five must fail before processing. -/
theorem spec_C8_counterexample :
    parse_args_errors (("0.01,0.02,0.03,0.04,0.05,0.06").data) = .ok errs5 := by decide

/-- C9 counterexample: a structurally valid line with blank phase and blank
stime does not always yield zero picks: with the out-of-range quality digit
`7` the decoder raises `IndexError` before reaching the stime check. -/
theorem spec_C9_counterexample :
    _parse_hypo71_pick_line lineBlank7 errs5 = .error .idxErr := by decide

/-! ### C2: decoder result shape -/

/-- the decode body never returns more than two picks -/
theorem decodeBody_length_le (line : List Char) (errors : List Frac) (picks : List Pick)
    (h : decodeBody line errors = .ok picks) : picks.length ≤ 2 := by
  simp only [decodeBody] at h
  repeat' split at h
  all_goals first
    | exact Except.noConfusion h
    | (injection h with h2; subst h2; simp)

/-- C2 (corrected): the decoder is not total — unreadable time content,
out-of-range quality digits or too-short raw lines raise `ValueError` /
`IndexError` to the caller — but whenever it does return, the result is a
sequence of 0, 1 or 2 picks; only the quality-digit parse failure and the
blank-stime case are absorbed silently. -/
theorem spec_C2 (line : List Char) (errors : List Frac) (picks : List Pick)
    (h : _parse_hypo71_pick_line line errors = .ok picks) : picks.length ≤ 2 := by
  unfold _parse_hypo71_pick_line at h
  split at h
  · injection h with h2; subst h2; simp
  · injection h with h2; subst h2; simp
  · exact Except.noConfusion h
  · exact decodeBody_length_le _ _ _ h

/-- C2 witness: the bound applied to the decode of the concrete line
`exLine`. -/
theorem spec_C2_witness : ([exPick] : List Pick).length ≤ 2 :=
  spec_C2 exLine errs5 [exPick] (by decide)

/-! ### C1: quality bounds of emitted picks -/

/-- full characterisation of a successful decode-body run -/
theorem decodeBody_ok_shape (cl : List Char) (errors : List Frac) (picks : List Pick)
    (h : decodeBody cl errors = .ok picks) :
    ∃ err1 hour minute seconds day,
      pyIndex errors (parseQuality (pySlice cl 7 8)) = some err1 ∧
      pyInt? (pySlice (timestrOf cl) 6 8) = some hour ∧
      pyInt? (pySlice (timestrOf cl) 8 10) = some minute ∧
      pyFloat? (pySlice (timestrOf cl) 10 15) = some seconds ∧
      strptimeYMD ((timestrOf cl).take 6) = some day ∧
      ((pyStrip (pySlice cl 31 36) = [] ∧
        picks = (if pySlice cl 5 6 = ['P'] then
          [primaryPickOf cl err1 hour minute day seconds] else [])) ∨
       (pyStrip (pySlice cl 31 36) ≠ [] ∧
        ∃ err2 sval,
          pyIndex errors (parseQuality (pySlice cl 39 40)) = some err2 ∧
          pyFloat? (pySlice cl 31 36) = some sval ∧
          picks = (if pySlice cl 5 6 = ['P'] then
            [primaryPickOf cl err1 hour minute day seconds] else []) ++
            [secondPickOf cl err2 (primaryTime hour minute day seconds) sval])) := by
  simp only [decodeBody] at h
  rcases hq1 : pyIndex errors (parseQuality (pySlice cl 7 8)) with _ | err1 <;>
    simp only [hq1] at h
  · exact Except.noConfusion h
  rcases hhr : pyInt? (pySlice (timestrOf cl) 6 8) with _ | hour <;> simp only [hhr] at h
  · exact Except.noConfusion h
  rcases hmin : pyInt? (pySlice (timestrOf cl) 8 10) with _ | minute <;> simp only [hmin] at h
  · exact Except.noConfusion h
  rcases hsec : pyFloat? (pySlice (timestrOf cl) 10 15) with _ | seconds <;>
    simp only [hsec] at h
  · exact Except.noConfusion h
  rcases hday : strptimeYMD ((timestrOf cl).take 6) with _ | day <;> simp only [hday] at h
  · exact Except.noConfusion h
  by_cases hst : pyStrip (pySlice cl 31 36) = []
  · rw [if_pos hst] at h
    injection h with h2
    exact ⟨err1, hour, minute, seconds, day, rfl, rfl, rfl, rfl, rfl,
      Or.inl ⟨hst, h2.symm⟩⟩
  · rw [if_neg hst] at h
    rcases hq2 : pyIndex errors (parseQuality (pySlice cl 39 40)) with _ | err2 <;>
      simp only [hq2] at h
    · exact Except.noConfusion h
    rcases hsv : pyFloat? (pySlice cl 31 36) with _ | sval <;> simp only [hsv] at h
    · exact Except.noConfusion h
    injection h with h2
    exact ⟨err1, hour, minute, seconds, day, rfl, rfl, rfl, rfl, rfl,
      Or.inr ⟨hst, err2, sval, rfl, rfl, h2.symm⟩⟩

/-- stripping a one-character string -/
theorem pyStrip_single (c : Char) :
    pyStrip [c] = if pyIsSpace c then [] else [c] := by
  by_cases hsp : pyIsSpace c <;> simp [pyStrip, hsp]

/-- `int` of a string of at most one character can only be nonnegative: a lone
sign character has no digits to parse -/
theorem pyInt?_nonneg_single (s : List Char) (hs : s.length ≤ 1) (z : ℤ)
    (hz : pyInt? s = some z) : 0 ≤ z := by
  match s, hs with
  | [], _ =>
    simp [pyInt?, pyStrip, digitsToNat?] at hz
  | [c], _ =>
    rw [pyInt?, pyStrip_single] at hz
    by_cases hsp : pyIsSpace c
    · rw [if_pos hsp] at hz
      simp [digitsToNat?] at hz
    · rw [if_neg hsp] at hz
      split at hz
      · rename_i r heq
        injection heq with h1 h2
        subst h2
        simp [digitsToNat?] at hz
      · rename_i r heq
        injection heq with h1 h2
        subst h2
        simp [digitsToNat?] at hz
      · cases hdg : digitsToNat? [c] with
        | none => rw [hdg] at hz; simp at hz
        | some n =>
          rw [hdg] at hz
          simp at hz
          omega

/-- a successful nonnegative list lookup stays within the list -/
theorem pyIndex_some_lt (l : List Frac) (i : ℤ) (e : Frac) (h0 : 0 ≤ i)
    (h : pyIndex l i = some e) : i.toNat < l.length := by
  unfold pyIndex at h
  rw [if_pos h0] at h
  by_contra hge
  push_neg at hge
  rw [List.get?_eq_none.mpr hge] at h
  exact Option.noConfusion h

/-- a one-character slice -/
theorem pySlice_one_le (s : List Char) (a : ℕ) : (pySlice s a (a + 1)).length ≤ 1 := by
  simp [pySlice]
  omega

/-- the parsed quality is in `[0, 4]` whenever its lookup in a five-entry
table succeeds -/
theorem parseQuality_bounds (errors : List Frac) (s : List Char) (e : Frac)
    (hs : s.length ≤ 1) (h5 : errors.length = 5)
    (h : pyIndex errors (parseQuality s) = some e) :
    0 ≤ parseQuality s ∧ parseQuality s ≤ 4 := by
  have h0 : 0 ≤ parseQuality s := by
    unfold parseQuality
    cases hq : pyInt? s with
    | none => simp
    | some z => simpa using pyInt?_nonneg_single s hs z hq
  have hlt := pyIndex_some_lt errors _ e h0 h
  rw [h5] at hlt
  exact ⟨h0, by omega⟩

/-- C1 (corrected): every pick the decoder actually returns has quality in
`[0, 4]` with `error = errors[quality]`, and the fallback to 4 covers exactly
the fields that do not parse as an integer; but a digit `5`-`9` parses to an
out-of-range quality and raises `IndexError` instead of falling back (see the
counterexample). -/
theorem spec_C1 (line : List Char) (errors : List Frac) (picks : List Pick)
    (h5 : errors.length = 5)
    (h : _parse_hypo71_pick_line line errors = .ok picks) :
    ∀ p ∈ picks, 0 ≤ p.quality ∧ p.quality ≤ 4 ∧ pyIndex errors p.quality = some p.error := by
  intro p hp
  unfold _parse_hypo71_pick_line at h
  split at h
  · injection h with h2; subst h2; simp at hp
  · injection h with h2; subst h2; simp at hp
  · exact Except.noConfusion h
  · obtain ⟨err1, hour, minute, seconds, day, hq1, _, _, _, _, hdisj⟩ :=
      decodeBody_ok_shape _ _ _ h
    have hprim : p = primaryPickOf (pyRemoveNl line) err1 hour minute day seconds →
        0 ≤ p.quality ∧ p.quality ≤ 4 ∧ pyIndex errors p.quality = some p.error := by
      rintro rfl
      simp only [primaryPickOf]
      obtain ⟨hb0, hb4⟩ := parseQuality_bounds errors _ err1 (pySlice_one_le _ 7) h5 hq1
      exact ⟨hb0, hb4, hq1⟩
    rcases hdisj with ⟨_, rfl⟩ | ⟨_, err2, sval, hq2, _, rfl⟩
    · split at hp
      · exact hprim (List.mem_singleton.mp hp)
      · simp at hp
    · rcases List.mem_append.mp hp with hp1 | hp2
      · split at hp1
        · exact hprim (List.mem_singleton.mp hp1)
        · simp at hp1
      · obtain rfl := List.mem_singleton.mp hp2
        simp only [secondPickOf]
        obtain ⟨hb0, hb4⟩ := parseQuality_bounds errors _ err2 (pySlice_one_le _ 39) h5 hq2
        exact ⟨hb0, hb4, hq2⟩

/-- C1 witness: the invariant applied to the pick decoded from `exLine`. -/
theorem spec_C1_witness :
    0 ≤ exPick.quality ∧ exPick.quality ≤ 4 ∧ pyIndex errs5 exPick.quality = some exPick.error :=
  spec_C1 exLine errs5 [exPick] (by decide) (by decide) exPick (by simp)

/-! ### C9: blank phase and blank stime -/

/-- a string that parses as a float is not whitespace-only -/
theorem pyFloat?_some_strip_ne (s : List Char) (x : Frac) (h : pyFloat? s = some x) :
    pyStrip s ≠ [] := by
  intro hnil
  rw [pyFloat?, hnil] at h
  simp [pyFloatBody?] at h

/-- C9 (corrected): on a structurally valid line with blank phase field and
blank stime field the decoder emits zero picks whenever it returns at all;
an unreadable time field or an out-of-range quality digit still raises (see
the counterexample). -/
theorem spec_C9 (line : List Char) (errors : List Frac)
    (hgate : decodeGate line = .pass)
    (hphase : pySlice (pyRemoveNl line) 5 6 = [' '])
    (hstime : pyStrip (pySlice (pyRemoveNl line) 31 36) = []) :
    _parse_hypo71_pick_line line errors = .ok [] ∨
    ∃ e, _parse_hypo71_pick_line line errors = .error e := by
  unfold _parse_hypo71_pick_line
  rw [hgate]
  cases hb : decodeBody (pyRemoveNl line) errors with
  | error e => exact Or.inr ⟨e, rfl⟩
  | ok picks =>
    left
    obtain ⟨err1, hour, minute, seconds, day, _, _, _, _, _, hdisj⟩ :=
      decodeBody_ok_shape _ _ _ hb
    rcases hdisj with ⟨_, rfl⟩ | ⟨hne, _⟩
    · rw [hphase]
      simp
    · exact absurd hstime hne

/-- C9 witness: applied to the concrete blank-phase line `lineBlankOk`. -/
theorem spec_C9_witness :
    _parse_hypo71_pick_line lineBlankOk errs5 = .ok [] ∨
    ∃ e, _parse_hypo71_pick_line lineBlankOk errs5 = .error e :=
  spec_C9 lineBlankOk errs5 (by decide) (by decide) (by decide)

/-! ### C5: second pick sharing the primary's date, hour and minute -/

/-- C5 (corrected): on a structurally valid P line whose stime field parses
to an exact number of microseconds in `[0, 60)` seconds, the decoder — when
it returns — yields exactly two picks, the second sharing the first's date,
hour and minute and carrying the stime value as its seconds; an stime of 60
seconds or more (or a negative one) breaks the date/hour/minute equality, as
the counterexample shows. -/
theorem spec_C5 (line : List Char) (errors : List Frac) (q : Frac)
    (hgate : decodeGate line = .pass)
    (hphase : pySlice (pyRemoveNl line) 5 6 = ['P'])
    (hq : pyFloat? (pySlice (pyRemoveNl line) 31 36) = some q)
    (hden : 0 < q.den)
    (hmu : q.num * 1000000 % q.den = 0)
    (h0 : 0 ≤ q.val) (h60 : q.val < 60) :
    (∀ picks, _parse_hypo71_pick_line line errors = .ok picks → picks.length = 2) ∧
    (∀ p1 p2, _parse_hypo71_pick_line line errors = .ok [p1, p2] →
      dayOrdOf p2.time = dayOrdOf p1.time ∧ hourOf p2.time = hourOf p1.time ∧
      minuteOf p2.time = minuteOf p1.time ∧
      (secondOf p2.time : ℚ) + (microsecondOf p2.time : ℚ) / 1000000 = q.val) := by
  have hδeq : pyRoundHalfEven (q.mulInt 1000000) = q.num * 1000000 / q.den :=
    pyRoundHalfEven_of_exact (q.mulInt 1000000) hden hmu
  have hδval : ((q.num * 1000000 / q.den : ℤ) : ℚ) = q.val * 1000000 := by
    have hdvd : q.den ∣ q.num * 1000000 := Int.dvd_of_emod_eq_zero hmu
    have hc : q.num * 1000000 / q.den * q.den = q.num * 1000000 :=
      Int.ediv_mul_cancel hdvd
    have hden0 : (q.den : ℚ) ≠ 0 := by
      have := hden.ne'
      exact_mod_cast this
    rw [Frac.val, div_mul_eq_mul_div, eq_div_iff hden0]
    exact_mod_cast hc
  have hδ0 : 0 ≤ q.num * 1000000 / q.den := by
    have hr : (0 : ℚ) ≤ ((q.num * 1000000 / q.den : ℤ) : ℚ) := by
      rw [hδval]
      exact mul_nonneg h0 (by norm_num)
    exact_mod_cast hr
  have hδlt : q.num * 1000000 / q.den < 60000000 := by
    have hr : ((q.num * 1000000 / q.den : ℤ) : ℚ) < 60000000 := by
      rw [hδval]
      have := mul_lt_mul_of_pos_right h60 (show (0 : ℚ) < 1000000 by norm_num)
      calc q.val * 1000000 < 60 * 1000000 := this
        _ = 60000000 := by norm_num
    exact_mod_cast hr
  constructor
  · intro picks hok
    unfold _parse_hypo71_pick_line at hok
    rw [hgate] at hok
    obtain ⟨err1, hour, minute, seconds, day, _, _, _, _, _, hdisj⟩ :=
      decodeBody_ok_shape _ _ _ hok
    rcases hdisj with ⟨hst, rfl⟩ | ⟨_, err2, sval, _, hsv, rfl⟩
    · exact absurd hst (pyFloat?_some_strip_ne _ _ hq)
    · simp [hphase]
  · intro p1 p2 hok
    unfold _parse_hypo71_pick_line at hok
    rw [hgate] at hok
    obtain ⟨err1, hour, minute, seconds, day, _, _, _, _, _, hdisj⟩ :=
      decodeBody_ok_shape _ _ _ hok
    rcases hdisj with ⟨hst, _⟩ | ⟨_, err2, sval, _, hsv, heq⟩
    · exact absurd hst (pyFloat?_some_strip_ne _ _ hq)
    · rw [if_pos hphase] at heq
      have hsq : q = sval := by
        rw [hq] at hsv
        injection hsv
      subst hsq
      have hpair : p1 = primaryPickOf (pyRemoveNl line) err1 hour minute day seconds ∧
          p2 = secondPickOf (pyRemoveNl line) err2 (primaryTime hour minute day seconds) q := by
        have h2 : [p1, p2] = [primaryPickOf (pyRemoveNl line) err1 hour minute day seconds,
            secondPickOf (pyRemoveNl line) err2 (primaryTime hour minute day seconds) q] := by
          simpa using heq
        injection h2 with ha hb
        injection hb with hb1
        exact ⟨ha, hb1⟩
      obtain ⟨rfl, rfl⟩ := hpair
      simp only [primaryPickOf, secondPickOf, hδeq]
      set t := primaryTime hour minute day seconds with ht
      set δ := q.num * 1000000 / q.den with hδ
      refine ⟨?_, ?_, ?_, ?_⟩
      · unfold dayOrdOf
        omega
      · unfold hourOf
        omega
      · unfold minuteOf
        omega
      · unfold secondOf microsecondOf
        have hs1 : (t / 60000000 * 60000000 + δ) / 1000000 % 60 = δ / 1000000 := by omega
        have hs2 : (t / 60000000 * 60000000 + δ) % 1000000 = δ % 1000000 := by omega
        rw [hs1, hs2]
        have hsplit : δ / 1000000 * 1000000 + δ % 1000000 = δ := by omega
        field_simp
        rw [← hδval]
        exact_mod_cast hsplit

/-- C5 witness: applied to `lineS12`, whose stime field holds `12.50`. -/
theorem spec_C5_witness :
    dayOrdOf exPickS12.time = dayOrdOf exPick.time ∧
    hourOf exPickS12.time = hourOf exPick.time ∧
    minuteOf exPickS12.time = minuteOf exPick.time ∧
    (secondOf exPickS12.time : ℚ) + (microsecondOf exPickS12.time : ℚ) / 1000000 =
      (Frac.mk 1250 100).val :=
  (spec_C5 lineS12 errs5 ⟨1250, 100⟩ (by decide) (by decide) (by decide) (by decide)
    (by decide) (by norm_num [Frac.val]) (by norm_num [Frac.val])).2 exPick exPickS12
    (by decide)

/-! ### C3: separator-delimited grouping -/

/-- a separator line, as recognised by the segmenter -/
def sepLine : List Char := ("10").data

/-- mapping twice over an `Except` composes -/
theorem except_map_map {ε α β γ : Type} (f : α → β) (g : β → γ) (e : Except ε α) :
    (e.map f).map g = e.map (fun x => g (f x)) := by
  cases e <;> rfl

/-- the imperative scan loop refines the recursive reference segmentation -/
theorem segLoop_eq (errors : List Frac) (ls : List (List Char)) (buf : List Pick)
    (acc : List (List Pick)) :
    segLoop errors ls buf acc = (eventsSpec errors ls buf).map (fun evs => acc ++ evs) := by
  induction ls generalizing buf acc with
  | nil => simp [segLoop, eventsSpec, Except.map]
  | cons l ls ih =>
    by_cases hsep : pyStrip l = ['1', '0']
    · cases hd : _parse_hypo71_pick_line l errors with
      | error e => simp [segLoop, eventsSpec, hsep, hd, Except.map]
      | ok ps =>
        simp only [segLoop, eventsSpec, if_pos hsep, hd]
        rw [ih, except_map_map]
        congr 1
        funext evs
        simp
    · cases hd : _parse_hypo71_pick_line l errors with
      | error e => simp [segLoop, eventsSpec, hsep, hd, Except.map]
      | ok ps =>
        simp only [segLoop, eventsSpec, if_neg hsep, hd]
        exact ih (buf ++ ps) acc

/-- the reference segmentation returns one event per separator line -/
theorem eventsSpec_length (errors : List Frac) (ls : List (List Char)) (buf : List Pick)
    (evs : List (List Pick)) (h : eventsSpec errors ls buf = .ok evs) :
    evs.length = countSep ls := by
  induction ls generalizing buf evs with
  | nil =>
    simp only [eventsSpec] at h
    injection h with h2
    subst h2
    simp [countSep]
  | cons l ls ih =>
    cases hd : _parse_hypo71_pick_line l errors with
    | error e =>
      simp only [eventsSpec, hd] at h
      exact Except.noConfusion h
    | ok ps =>
      by_cases hsep : pyStrip l = ['1', '0']
      · simp only [eventsSpec, hd, if_pos hsep] at h
        cases he : eventsSpec errors ls ps with
        | error e =>
          rw [he] at h
          exact Except.noConfusion h
        | ok evs2 =>
          rw [he] at h
          injection h with h2
          subst h2
          have hlen := ih ps evs2 he
          simp only [countSep, List.countP_cons, decide_eq_true_eq, if_pos hsep]
          simp only [countSep] at hlen
          simp [hlen, hsep]
      · simp only [eventsSpec, hd, if_neg hsep] at h
        have hlen := ih (buf ++ ps) evs h
        simp only [countSep, List.countP_cons, decide_eq_true_eq, if_neg hsep]
        simp only [countSep] at hlen
        simp [hlen, hsep]

/-- C3 (corrected): on a file that validates and decodes without error, N
separator lines produce exactly N events — not N + 1 — in source order: each
event is exactly the decode of its own segment (contents never cross a
separator) and the trailing buffer after the last separator is discarded. -/
theorem spec_C3 (lines : List (List Char)) (errors : List Frac) (res : List (List Pick))
    (h : parse_hypo71_picks lines errors = .ok res) :
    eventsSpec errors lines [] = .ok res ∧ res.length = countSep lines := by
  unfold parse_hypo71_picks at h
  cases hv : _is_hypo71_picks lines <;> rw [hv] at h
  · cases hs : segLoop errors lines [] [] with
    | error e =>
      rw [hs] at h
      exact Except.noConfusion h
    | ok evs =>
      rw [hs] at h
      injection h with h2
      subst h2
      rw [segLoop_eq] at hs
      cases he : eventsSpec errors lines [] with
      | error e =>
        rw [he] at hs
        exact Except.noConfusion hs
      | ok evs2 =>
        rw [he] at hs
        injection hs with h3
        subst h3
        constructor
        · simp
        · simpa using eventsSpec_length errors lines [] evs2 he
  · exact Except.noConfusion h
  · exact Except.noConfusion h

/-- C3 witness: a file with one pick line and two separators produces two
events, the second empty. -/
theorem spec_C3_witness :
    eventsSpec errs5 [exLine, sepLine, sepLine] [] = .ok [[exPick], []] ∧
    ([[exPick], []] : List (List Pick)).length = countSep [exLine, sepLine, sepLine] :=
  spec_C3 [exLine, sepLine, sepLine] errs5 [[exPick], []] (by decide)

/-! ### C4: validation failure modes -/

/-- on a line long enough for all three tested offsets the signature check
cannot fault on indexing -/
theorem checkLineV_long_no_idx (l : List Char) (hl : 20 < (pyRemoveNl l).length) :
    checkLineV l ≠ .idxErr := by
  intro hcon
  simp only [checkLineV] at hcon
  repeat' split at hcon
  all_goals first
    | exact LineVerdict.noConfusion hcon
    | (rename_i heq; rw [List.get?_eq_none] at heq; omega)

/-- a line that is a separator, blank, or long enough never faults on
indexing in the signature check -/
theorem checkLineV_ne_idx (l : List Char)
    (hl : pyStrip (pyRemoveNl l) ≠ ['1', '0'] → pyStrip (pyRemoveNl l) ≠ [] →
      20 < (pyRemoveNl l).length) :
    checkLineV l ≠ .idxErr := by
  by_cases hsep : pyStrip (pyRemoveNl l) = ['1', '0']
  · have hskip : checkLineV l = .skip := by
      simp only [checkLineV]
      rw [if_pos (Or.inl hsep)]
    rw [hskip]
    intro h
    exact LineVerdict.noConfusion h
  · by_cases hemp : pyStrip (pyRemoveNl l) = []
    · have hskip : checkLineV l = .skip := by
        simp only [checkLineV]
        rw [if_pos (Or.inr hemp)]
      rw [hskip]
      intro h
      exact LineVerdict.noConfusion h
    · exact checkLineV_long_no_idx l (hl hsep hemp)

/-- the validator never reports an index fault on a file whose non-blank,
non-separator lines all reach offset 20 -/
theorem validator_no_idx (lines : List (List Char))
    (hlen : ∀ l ∈ lines, pyStrip (pyRemoveNl l) ≠ ['1', '0'] →
      pyStrip (pyRemoveNl l) ≠ [] → 20 < (pyRemoveNl l).length) :
    _is_hypo71_picks lines ≠ .indexError := by
  induction lines with
  | nil =>
    intro h
    exact ValidateResult.noConfusion h
  | cons a as ih =>
    have hrest : ∀ l ∈ as, pyStrip (pyRemoveNl l) ≠ ['1', '0'] →
        pyStrip (pyRemoveNl l) ≠ [] → 20 < (pyRemoveNl l).length :=
      fun l hm => hlen l (List.mem_cons_of_mem _ hm)
    cases hv : checkLineV a <;> simp only [_is_hypo71_picks, hv]
    · exact ih hrest
    · exact ih hrest
    · intro h
      exact ValidateResult.noConfusion h
    · exact absurd hv (checkLineV_ne_idx a (hlen a (List.mem_cons_self a as)))

/-- a signature failure anywhere in a well-sized file turns the whole
validation into a format error -/
theorem validator_sigFail (lines : List (List Char))
    (hlen : ∀ l ∈ lines, pyStrip (pyRemoveNl l) ≠ ['1', '0'] →
      pyStrip (pyRemoveNl l) ≠ [] → 20 < (pyRemoveNl l).length)
    (hex : ∃ l ∈ lines, checkLineV l = .sigFail) :
    _is_hypo71_picks lines = .formatError := by
  induction lines with
  | nil =>
    rcases hex with ⟨l, hl, _⟩
    simp at hl
  | cons a as ih =>
    have hrest : ∀ l ∈ as, pyStrip (pyRemoveNl l) ≠ ['1', '0'] →
        pyStrip (pyRemoveNl l) ≠ [] → 20 < (pyRemoveNl l).length :=
      fun l hm => hlen l (List.mem_cons_of_mem _ hm)
    cases hv : checkLineV a <;> simp only [_is_hypo71_picks, hv]
    · apply ih hrest
      rcases hex with ⟨l, hl, hsf⟩
      rcases List.mem_cons.mp hl with rfl | hm
      · rw [hv] at hsf
        exact absurd hsf (fun h => LineVerdict.noConfusion h)
      · exact ⟨l, hm, hsf⟩
    · apply ih hrest
      rcases hex with ⟨l, hl, hsf⟩
      rcases List.mem_cons.mp hl with rfl | hm
      · rw [hv] at hsf
        exact absurd hsf (fun h => LineVerdict.noConfusion h)
      · exact ⟨l, hm, hsf⟩
    · exact absurd hv (checkLineV_ne_idx a (hlen a (List.mem_cons_self a as)))

/-- C4 (corrected): when every non-blank, non-separator line is long enough
to reach the three tested offsets, a signature failure makes the run abort
with the format error and no output; but a line too short for an evaluated
offset instead raises an uncaught out-of-range indexing fault, which the
counterexample exhibits, so the claim's "never an out-of-range indexing
fault" does not hold in general. -/
theorem spec_C4 (lines : List (List Char))
    (hlen : ∀ l ∈ lines, pyStrip (pyRemoveNl l) ≠ ['1', '0'] →
      pyStrip (pyRemoveNl l) ≠ [] → 20 < (pyRemoveNl l).length) :
    _is_hypo71_picks lines ≠ .indexError ∧
    ((∃ l ∈ lines, checkLineV l = .sigFail) →
      _is_hypo71_picks lines = .formatError ∧
      ∀ errors, parse_hypo71_picks lines errors = .error .format) := by
  refine ⟨validator_no_idx lines hlen, fun hex => ?_⟩
  have hfmt := validator_sigFail lines hlen hex
  exact ⟨hfmt, fun errors => by simp only [parse_hypo71_picks, hfmt]⟩

/-- C4 witness: the one-line file holding `lineBadSig` (phase column `X`)
fails validation with the format error and the run produces no events. -/
theorem spec_C4_witness :
    _is_hypo71_picks [lineBadSig] = .formatError ∧
    parse_hypo71_picks [lineBadSig] errs5 = .error .format :=
  ⟨((spec_C4 [lineBadSig] (by decide)).2 ⟨lineBadSig, by simp, by decide⟩).1,
   ((spec_C4 [lineBadSig] (by decide)).2 ⟨lineBadSig, by simp, by decide⟩).2 errs5⟩

/-! ### C8: the `--errors` option check -/

/-- a successful conversion step names an existing, parseable entry -/
theorem floatAt_ok (parts : List (List Char)) (i : ℕ) (v : Frac)
    (h : floatAt parts i = .ok v) :
    ∃ p, parts.get? i = some p ∧ pyFloat? p = some v := by
  unfold floatAt at h
  cases hg : parts.get? i with
  | none =>
    rw [hg] at h
    exact Except.noConfusion h
  | some p =>
    simp only [hg] at h
    cases hf : pyFloat? p with
    | none =>
      simp only [hf] at h
      exact Except.noConfusion h
    | some w =>
      simp only [hf] at h
      injection h with h2
      exact ⟨p, rfl, by rw [hf, h2]⟩

/-- C8 (corrected): fewer than five comma-separated values (or a non-numeric
entry among the first five) make the run fail with a configuration error
before the input file is read; but five is only a minimum — a successful run
uses exactly the first five entries and silently ignores any extras, as the
counterexample with six values shows. -/
theorem spec_C8 :
    (∀ s : List Char, (splitOnComma s).length < 5 →
      ∃ e, parse_args_errors s = .error e) ∧
    (∀ s vals, parse_args_errors s = .ok vals →
      5 ≤ (splitOnComma s).length ∧
      ((splitOnComma s).take 5).mapM pyFloat? = some vals) ∧
    (∀ s e, parse_args_errors s = .error e →
      ∀ lines, convertRun s lines = .error (.config e)) := by
  have hmain : ∀ s vals, parse_args_errors s = .ok vals →
      5 ≤ (splitOnComma s).length ∧
      ((splitOnComma s).take 5).mapM pyFloat? = some vals := by
    intro s vals h
    unfold parse_args_errors at h
    cases hv0 : floatAt (splitOnComma s) 0 with
    | error e => rw [hv0] at h; exact Except.noConfusion h
    | ok v0 =>
    simp only [hv0] at h
    cases hv1 : floatAt (splitOnComma s) 1 with
    | error e => rw [hv1] at h; exact Except.noConfusion h
    | ok v1 =>
    simp only [hv1] at h
    cases hv2 : floatAt (splitOnComma s) 2 with
    | error e => rw [hv2] at h; exact Except.noConfusion h
    | ok v2 =>
    simp only [hv2] at h
    cases hv3 : floatAt (splitOnComma s) 3 with
    | error e => rw [hv3] at h; exact Except.noConfusion h
    | ok v3 =>
    simp only [hv3] at h
    cases hv4 : floatAt (splitOnComma s) 4 with
    | error e => rw [hv4] at h; exact Except.noConfusion h
    | ok v4 =>
    simp only [hv4] at h
    injection h with h2
    subst h2
    obtain ⟨p0, hg0, hp0⟩ := floatAt_ok _ _ _ hv0
    obtain ⟨p1, hg1, hp1⟩ := floatAt_ok _ _ _ hv1
    obtain ⟨p2, hg2, hp2⟩ := floatAt_ok _ _ _ hv2
    obtain ⟨p3, hg3, hp3⟩ := floatAt_ok _ _ _ hv3
    obtain ⟨p4, hg4, hp4⟩ := floatAt_ok _ _ _ hv4
    have hlen : 5 ≤ (splitOnComma s).length := by
      by_contra hlt
      push_neg at hlt
      rw [List.get?_eq_none.mpr (by omega)] at hg4
      exact Option.noConfusion hg4
    refine ⟨hlen, ?_⟩
    rcases hsp : splitOnComma s with _ | ⟨q0, _ | ⟨q1, _ | ⟨q2, _ | ⟨q3, _ | ⟨q4, rest⟩⟩⟩⟩⟩ <;>
      rw [hsp] at hg0 hg1 hg2 hg3 hg4 <;>
      simp only [List.get?] at hg0 hg1 hg2 hg3 hg4 <;>
      first
      | exact Option.noConfusion hg4
      | (injection hg0 with e0; injection hg1 with e1; injection hg2 with e2;
         injection hg3 with e3; injection hg4 with e4;
         subst e0; subst e1; subst e2; subst e3; subst e4;
         simp [List.mapM_cons, List.mapM.loop, hp0, hp1, hp2, hp3, hp4])
  refine ⟨?_, hmain, ?_⟩
  · intro s hlt
    cases hres : parse_args_errors s with
    | error e => exact ⟨e, rfl⟩
    | ok vals =>
      have := (hmain s vals hres).1
      omega
  · intro s e h lines
    simp only [convertRun, h]

/-- C8 witness: the configuration failure on the two-value string `1,2`
aborts the run before the (empty) input file is processed. -/
theorem spec_C8_witness :
    convertRun (("1,2").data) [] = .error (.config .needFive) :=
  spec_C8.2.2 (("1,2").data) .needFive (by decide) []

/-! ### C7: the NLLoc output line -/

/-- digit characters are never a newline -/
theorem digch_ne_nl (k : ℕ) : digch k ≠ '\n' := by
  unfold digch
  split <;> decide

/-- the fuelled digit expansion of `n < 10 ^ k` has at most `k` digits -/
theorem natDigitsAux_len : ∀ (f n k : ℕ), n < 10 ^ k → (natDigitsAux f n).length ≤ k := by
  intro f
  induction f with
  | zero =>
    intro n k _
    simp [natDigitsAux]
  | succ f ih =>
    intro n k hn
    unfold natDigitsAux
    by_cases h0 : n = 0
    · simp [h0]
    · rw [if_neg h0]
      cases k with
      | zero =>
        simp at hn
        omega
      | succ k =>
        have hd : n / 10 < 10 ^ k := by
          rw [Nat.div_lt_iff_lt_mul (by norm_num)]
          calc n < 10 ^ (k + 1) := hn
            _ = 10 ^ k * 10 := by ring
        have := ih (n / 10) k hd
        simp only [List.length_append, List.length_singleton]
        omega

/-- the decimal rendering of `n < 10 ^ k` has at most `k` characters -/
theorem natToStr_len_le (n k : ℕ) (hn : n < 10 ^ k) (hk : 1 ≤ k) :
    (natToStr n).length ≤ k := by
  unfold natToStr
  by_cases h0 : n = 0
  · simp [h0]
    omega
  · rw [if_neg h0]
    exact natDigitsAux_len (n + 1) n k hn

/-- zero-padding renders exactly `w` characters whenever the value fits -/
theorem padNum_length (w n : ℕ) (hn : n < 10 ^ w) (hw : 0 < w) :
    (padNum w n).length = w := by
  have := natToStr_len_le n w hn hw
  simp only [padNum, List.length_append, List.length_replicate]
  omega

/-- the digit expansion contains no newline -/
theorem natDigitsAux_no_nl (f : ℕ) : ∀ n, '\n' ∉ natDigitsAux f n := by
  induction f with
  | zero =>
    intro n
    simp [natDigitsAux]
  | succ f ih =>
    intro n
    unfold natDigitsAux
    by_cases h0 : n = 0
    · simp [h0]
    · rw [if_neg h0]
      intro hmem
      rcases List.mem_append.mp hmem with hA | hB
      · exact ih (n / 10) hA
      · exact digch_ne_nl (n % 10) (List.mem_singleton.mp hB).symm

/-- number rendering contains no newline -/
theorem natToStr_no_nl (n : ℕ) : '\n' ∉ natToStr n := by
  unfold natToStr
  by_cases h0 : n = 0
  · simp [h0]
  · rw [if_neg h0]
    exact natDigitsAux_no_nl (n + 1) n

/-- zero-padded rendering contains no newline -/
theorem padNum_no_nl (w n : ℕ) : '\n' ∉ padNum w n := by
  unfold padNum
  intro hmem
  rcases List.mem_append.mp hmem with hA | hB
  · have := List.eq_of_mem_replicate hA
    exact absurd this (by decide)
  · exact natToStr_no_nl n hB

/-- fractional digit expansion contains no newline -/
theorem fracDigitsAux_no_nl (f : ℕ) : ∀ r, '\n' ∉ fracDigitsAux f r := by
  induction f with
  | zero =>
    intro r
    simp [fracDigitsAux]
  | succ f ih =>
    intro r
    unfold fracDigitsAux
    by_cases h0 : r.num = 0
    · simp [h0]
    · rw [if_neg h0]
      intro hmem
      rcases List.mem_cons.mp hmem with hA | hB
      · exact digch_ne_nl _ hA.symm
      · exact ih _ hB

/-- the rendered error value contains no newline -/
theorem pyFloatRepr_no_nl (q : Frac) : '\n' ∉ pyFloatRepr q := by
  unfold pyFloatRepr
  intro hmem
  rcases List.mem_append.mp hmem with hA | hB
  · rcases List.mem_append.mp hA with hC | hD
    · rcases List.mem_append.mp hC with hE | hF
      · split at hE <;> simp at hE
      · exact natToStr_no_nl _ hF
    · simp at hD
  · split at hB
    · simp at hB
    · exact fracDigitsAux_no_nl _ _ hB

/-- a character outside both parts is outside their concatenation -/
theorem nl_notin_append {a : Char} {l1 l2 : List Char} (h1 : a ∉ l1) (h2 : a ∉ l2) :
    a ∉ l1 ++ l2 := by
  intro h
  rcases List.mem_append.mp h with h | h
  · exact h1 h
  · exact h2 h

/-- the rendered timestamp contains no newline -/
theorem strftimeNLL_no_nl (t : ℤ) : '\n' ∉ strftimeNLL t := by
  intro hmem
  simp only [strftimeNLL, List.mem_append, List.mem_singleton] at hmem
  repeat' rcases hmem with hmem | hmem
  all_goals exact padNum_no_nl _ _ hmem

/-- C7 (corrected): the emitter renders exactly one newline-free line with
the fixed field order station, `? ? ?`, phase, `YYYYMMDD HHMM SS.ffffff`
timestamp (4-digit zero-padded year, 23 characters in all, microsecond
precision), `GAU`, the error value and `1.0 1.0 1.0`; but the station is
left-justified in its 6 columns (padded on the right), not left-padded as
claimed — see the counterexample. -/
theorem spec_C7 (p : Pick) (hst : p.station.length ≤ 4)
    (hy : (dateOf p.time).1.toNat < 10000)
    (hmo : (dateOf p.time).2.1.toNat < 100)
    (hda : (dateOf p.time).2.2.toNat < 100)
    (hnst : '\n' ∉ p.station) (hnph : '\n' ∉ p.phase) :
    Pick.to_nlloc p =
      p.station ++ List.replicate (6 - p.station.length) ' ' ++ (" ? ? ? ").data ++
        p.phase ++ [' '] ++ strftimeNLL p.time ++ (" GAU ").data ++
        pyFloatRepr p.error ++ (" 1.0 1.0 1.0").data ∧
    (padRightStr 6 p.station).length = 6 ∧
    (strftimeNLL p.time).length = 23 ∧
    (padNum 4 (dateOf p.time).1.toNat).length = 4 ∧
    (padNum 6 (microsecondOf p.time).toNat).length = 6 ∧
    '\n' ∉ Pick.to_nlloc p := by
  have hyr : (padNum 4 (dateOf p.time).1.toNat).length = 4 :=
    padNum_length 4 _ (by exact_mod_cast hy) (by norm_num)
  have hmol : (padNum 2 (dateOf p.time).2.1.toNat).length = 2 :=
    padNum_length 2 _ (by exact_mod_cast hmo) (by norm_num)
  have hdal : (padNum 2 (dateOf p.time).2.2.toNat).length = 2 :=
    padNum_length 2 _ (by exact_mod_cast hda) (by norm_num)
  have hhr : (padNum 2 (hourOf p.time).toNat).length = 2 := by
    apply padNum_length 2 _ _ (by norm_num)
    unfold hourOf
    omega
  have hmi : (padNum 2 (minuteOf p.time).toNat).length = 2 := by
    apply padNum_length 2 _ _ (by norm_num)
    unfold minuteOf
    omega
  have hse : (padNum 2 (secondOf p.time).toNat).length = 2 := by
    apply padNum_length 2 _ _ (by norm_num)
    unfold secondOf
    omega
  have hus : (padNum 6 (microsecondOf p.time).toNat).length = 6 := by
    apply padNum_length 6 _ _ (by norm_num)
    unfold microsecondOf
    omega
  refine ⟨?_, ?_, ?_, hyr, hus, ?_⟩
  · simp [Pick.to_nlloc, padRightStr, List.append_assoc]
  · simp only [padRightStr, List.length_append, List.length_replicate]
    omega
  · simp only [strftimeNLL, List.length_append, hyr, hmol, hdal, hhr, hmi, hse, hus,
      List.length_singleton]
  · have hrepl : '\n' ∉ List.replicate (6 - p.station.length) ' ' := by
      intro h
      exact absurd (List.eq_of_mem_replicate h) (by decide)
    have hA : '\n' ∉ (" ? ? ? ").data := by decide
    have hsp : '\n' ∉ ([' '] : List Char) := by decide
    have hG : '\n' ∉ (" GAU ").data := by decide
    have hL : '\n' ∉ (" 1.0 1.0 1.0").data := by decide
    show '\n' ∉ Pick.to_nlloc p
    unfold Pick.to_nlloc padRightStr
    exact nl_notin_append (nl_notin_append (nl_notin_append (nl_notin_append (nl_notin_append
      (nl_notin_append (nl_notin_append (nl_notin_append hnst hrepl) hA) hnph) hsp)
      (strftimeNLL_no_nl _)) hG) (pyFloatRepr_no_nl _)) hL

/-- C7 witness: the format theorem applied to the concrete pick
`exPickNAP`. -/
theorem spec_C7_witness :
    Pick.to_nlloc exPickNAP =
      exPickNAP.station ++ List.replicate (6 - exPickNAP.station.length) ' ' ++
        (" ? ? ? ").data ++ exPickNAP.phase ++ [' '] ++ strftimeNLL exPickNAP.time ++
        (" GAU ").data ++ pyFloatRepr exPickNAP.error ++ (" 1.0 1.0 1.0").data ∧
    (padRightStr 6 exPickNAP.station).length = 6 ∧
    (strftimeNLL exPickNAP.time).length = 23 ∧
    (padNum 4 (dateOf exPickNAP.time).1.toNat).length = 4 ∧
    (padNum 6 (microsecondOf exPickNAP.time).toNat).length = 6 ∧
    '\n' ∉ Pick.to_nlloc exPickNAP :=
  spec_C7 exPickNAP (by decide) (by decide) (by decide) (by decide) (by decide) (by decide)
